import Mathlib

/-!
Shallow embedding of the Finnhub forex-news ingestion service
(`src/main.py`, class `FinnhubForexIngestion` and the `main` scheduler loop).

The external collaborators (Finnhub HTTP API, Supabase table store) are
modelled by explicit inputs: a fetch attempt is an `Except` value holding
either a parse/network error or the parsed article list, and a store
interaction is an `Except` value holding either a store error or the rows
the query returned.  The store operations actually issued by a call are
recorded in an explicit `StoreOp` log so that frame properties ("no read,
no write") can be stated.
-/

namespace ForexNews

/-- An article as parsed from the Finnhub API JSON.  Every field of the
Python dict may be absent, which `Option` models; the code reads the id
key by subscript (raising `KeyError` when absent) and the remaining fields
with `dict.get` and a default. -/
structure Article where
  id : Option Int
  category : Option String
  datetime : Option Int
  headline : Option String
  source : Option String
  summary : Option String
  url : Option String
deriving Repr, DecidableEq

/-- The normalized record handed to the bulk insert (`formatted` dict built
in `store_news`, lines 125-134 of `main.py`).  `datetime` stays optional
because the code copies the `dict.get` result for it verbatim, `None`
included. -/
structure StoredRecord where
  id : Int
  category : String
  datetime : Option Int
  headline : String
  source : String
  summary : String
  url : String
  ingested_at : String
deriving Repr, DecidableEq

/-- The fallback cursor constant, `self.min_id = 10`. -/
def min_id : Int := 10

/-- The failure threshold, `max_failures = 5` in `main`. -/
def max_failures : Nat := 5

/-- A store operation issued during the dedupe-and-persist stage. -/
inductive StoreOp
  | read
  | write
deriving Repr, DecidableEq

/-- Store semantics of the ordered read used by the cursor resolver: select
the id column, order descending, limit 1, over a store holding the given
ids. -/
def orderedReadDesc (store : List Int) : List Int :=
  (store.mergeSort (fun a b => decide (b ≤ a))).take 1

/-- Store semantics of the set-membership read used by the duplicate check:
select the id column where the id is among the given ids, over a store
holding the given ids. -/
def setMembershipRead (store : List Int) (ids : List Int) : List Int :=
  store.filter (fun i => ids.contains i)

/-- Embedding of `get_last_news_id` (lines 36-55): the argument is the outcome of the
ordered read, `Except.error` when the query raised.  Returns the first row
if any, otherwise `min_id`; any exception degrades to `min_id`. -/
def get_last_news_id (qr : Except Unit (List Int)) : Int :=
  match qr with
  | .error _ => min_id
  | .ok data =>
    match data with
    | [] => min_id
    | x :: _ => x

/-- The sort key of line 78: the datetime field, defaulting to 0 when
absent. -/
def sortKey (a : Article) : Int := a.datetime.getD 0

/-- A failure mode of the fetch attempt: `requests.exceptions.RequestException`
(network, timeout, non-2xx via `raise_for_status`) or any other exception
(for example JSON parsing). -/
inductive FetchError
  | request
  | unexpected
deriving Repr, DecidableEq

/-- Embedding of `fetch_forex_news` (lines 57-88), from the point where the
HTTP response is in hand: on any error return `[]`; otherwise sort
descending by `datetime` (missing sorts as `0`; the Python sort is stable,
as is `mergeSort`) and keep the first 10. -/
def fetch_forex_news (resp : Except FetchError (List Article)) : List Article :=
  match resp with
  | .error _ => []
  | .ok news_data =>
    (news_data.mergeSort (fun x y => decide (sortKey y ≤ sortKey x))).take 10

/-- Embedding of `check_duplicates` (lines 90-107).  The second argument is the outcome
of the set-membership read, issued only when `news_ids` is non-empty; the
returned op log records whether that read was issued.  The Python set
comprehension over the returned rows becomes `toFinset`; any exception
degrades to the empty set. -/
def check_duplicates (news_ids : List Int) (qr : Except Unit (List Int)) :
    Finset Int × List StoreOp :=
  if news_ids = [] then (∅, [])
  else
    match qr with
    | .ok data => (data.toFinset, [StoreOp.read])
    | .error _ => (∅, [StoreOp.read])

/-- The `formatted` dict of lines 125-134 for an article whose `id` is
`i`. -/
def formatArticle (a : Article) (i : Int) (now : String) : StoredRecord :=
  { id := i
    category := a.category.getD "forex"
    datetime := a.datetime
    headline := a.headline.getD ""
    source := a.source.getD ""
    summary := a.summary.getD ""
    url := a.url.getD ""
    ingested_at := now }

/-- The filter loop of lines 121-135: walk the articles in order, skip those
whose id is in `existing`, format the rest.  The subscript read of the id
raises on a missing key, which `Option` propagates (unreachable in
`store_news`, where id extraction has already succeeded). -/
def buildNewArticles (articles : List Article) (existing : Finset Int)
    (now : String) : Option (List StoredRecord) :=
  match articles with
  | [] => some []
  | a :: rest => do
    let i ← a.id
    let tail ← buildNewArticles rest existing now
    if i ∈ existing then pure tail else pure (formatArticle a i now :: tail)

/-- The id extraction of line 117, a list comprehension reading the id key
of every article: a `KeyError` on any article (modelled as `none`) aborts
the whole comprehension. -/
def extractIds (articles : List Article) : Option (List Int) :=
  match articles with
  | [] => some []
  | a :: rest => do
    let i ← a.id
    let t ← extractIds rest
    pure (i :: t)

/-- Outcomes the store supplies during one `store_news` call: the
set-membership read result and the bulk-insert result, each `Except.error`
when the corresponding call would raise. -/
structure StoreEnv where
  dupQuery : Except Unit (List Int)
  insert : Except Unit Unit
deriving Repr

/-- Result of one `store_news` call: the returned boolean, the log of store
operations issued, and the exact record list passed to the bulk insert when
one was issued (`none` when no insert call was made). -/
structure PersistResult where
  success : Bool
  ops : List StoreOp
  payload : Option (List StoredRecord)
deriving Repr, DecidableEq

/-- Embedding of `store_news` (lines 109-153).  Empty input returns `True` at once.
Otherwise extract the ids (a `KeyError` here is caught by the outer
`except`, returning `False` before any store call), run the duplicate
check, filter and format, and — when anything is left — issue one bulk
insert whose failure makes the call return `False`. -/
def store_news (articles : List Article) (env : StoreEnv) (now : String) :
    PersistResult :=
  if articles = [] then ⟨true, [], none⟩
  else
    match extractIds articles with
    | none => ⟨false, [], none⟩
    | some article_ids =>
      let cd := check_duplicates article_ids env.dupQuery
      match buildNewArticles articles cd.1 now with
      | none => ⟨false, cd.2, none⟩
      | some new_articles =>
        if new_articles = [] then ⟨true, cd.2, none⟩
        else
          match env.insert with
          | .ok _ => ⟨true, cd.2 ++ [StoreOp.write], some new_articles⟩
          | .error _ => ⟨false, cd.2 ++ [StoreOp.write], some new_articles⟩

/-- Embedding of `run` (lines 155-179): fetch, return `True` when nothing was fetched,
otherwise return what `store_news` reports. -/
def run (resp : Except FetchError (List Article)) (env : StoreEnv)
    (now : String) : Bool :=
  let articles := fetch_forex_news resp
  if articles = [] then true
  else (store_news articles env now).success

/-- State of the continuous-mode scheduler after some iterations: still
looping with a given consecutive-failure count, or terminated with an exit
code. -/
inductive LoopState
  | running (failures : Nat)
  | exited (code : Nat)
deriving Repr, DecidableEq

/-- One iteration of the `while True` loop in `main` (lines 215-245), as a
function of whether the cycle reported success: success resets the counter,
failure increments it and exits with code 1 at `max_failures`. -/
def stepLoop (failures : Nat) (success : Bool) : LoopState :=
  if success then .running 0
  else
    if failures + 1 ≥ max_failures then .exited 1
    else .running (failures + 1)

/-- The continuous loop run over a finite trace of cycle outcomes. -/
def runLoop (failures : Nat) (results : List Bool) : LoopState :=
  match results with
  | [] => .running failures
  | r :: rest =>
    match stepLoop failures r with
    | .exited c => .exited c
    | .running f => runLoop f rest

/-! ### Helper lemmas -/

/-- A successful id extraction returns exactly the ids of the articles in
order. -/
theorem extractIds_eq_map (articles : List Article) (ids : List Int)
    (h : extractIds articles = some ids) :
    articles.map (fun a => a.id.getD 0) = ids := by
  induction articles generalizing ids with
  | nil => simp [extractIds] at h; simp [← h]
  | cons a rest ih =>
    cases hi : a.id with
    | none => simp [extractIds, hi] at h
    | some i =>
      cases ht : extractIds rest with
      | none => simp [extractIds, hi, ht] at h
      | some t =>
        simp [extractIds, hi, ht] at h
        simp [hi, ih t ht, ← h]

/-- An article with a missing id key makes the extraction raise. -/
theorem extractIds_eq_none (articles : List Article) (a : Article)
    (ha : a ∈ articles) (hid : a.id = none) :
    extractIds articles = none := by
  induction articles with
  | nil => cases ha
  | cons b rest ih =>
    rcases List.mem_cons.mp ha with rfl | hmem
    · simp [extractIds, hid]
    · cases hb : b.id with
      | none => simp [extractIds, hb]
      | some i => simp [extractIds, hb, ih hmem]

/-- A successful id extraction certifies every article carries an id. -/
theorem extractIds_isSome (articles : List Article) (ids : List Int)
    (h : extractIds articles = some ids) :
    ∀ a ∈ articles, a.id.isSome := by
  intro a ha
  cases hid : a.id with
  | some i => rfl
  | none => rw [extractIds_eq_none articles a ha hid] at h; cases h

/-- When every article carries an id, the filter loop never raises and
returns exactly the filtered, formatted candidates in order. -/
theorem buildNewArticles_eq (articles : List Article) (E : Finset Int)
    (now : String) (h : ∀ a ∈ articles, a.id.isSome) :
    buildNewArticles articles E now =
      some ((articles.filter (fun a => decide (a.id.getD 0 ∉ E))).map
        (fun a => formatArticle a (a.id.getD 0) now)) := by
  induction articles with
  | nil => rfl
  | cons a rest ih =>
    obtain ⟨i, hi⟩ := Option.isSome_iff_exists.mp (h a (List.mem_cons_self a rest))
    rw [buildNewArticles, hi, ih (fun b hb => h b (List.mem_cons_of_mem a hb))]
    by_cases hmem : i ∈ E
    · simp [List.filter_cons, hi, hmem]
    · simp [List.filter_cons, hi, hmem]

/-- Full description of `store_news` on a non-empty batch whose ids all
extract: the duplicate-check read is issued, the new-article list is the
filtered formatted candidates, and a bulk insert is issued exactly when
that list is non-empty, its outcome deciding the returned boolean. -/
theorem store_news_spec (articles : List Article) (ids : List Int)
    (env : StoreEnv) (now : String) (hne : articles ≠ [])
    (hids : extractIds articles = some ids) :
    store_news articles env now =
      (if ((articles.filter (fun a =>
            decide (a.id.getD 0 ∉ (check_duplicates ids env.dupQuery).1))).map
            (fun a => formatArticle a (a.id.getD 0) now)) = [] then
        ⟨true, [StoreOp.read], none⟩
      else
        match env.insert with
        | .ok _ => ⟨true, [StoreOp.read, StoreOp.write],
            some ((articles.filter (fun a =>
              decide (a.id.getD 0 ∉ (check_duplicates ids env.dupQuery).1))).map
              (fun a => formatArticle a (a.id.getD 0) now))⟩
        | .error _ => ⟨false, [StoreOp.read, StoreOp.write],
            some ((articles.filter (fun a =>
              decide (a.id.getD 0 ∉ (check_duplicates ids env.dupQuery).1))).map
              (fun a => formatArticle a (a.id.getD 0) now))⟩) := by
  have hidsne : ids ≠ [] := by
    rw [← extractIds_eq_map articles ids hids]
    simpa using hne
  have hcd2 : (check_duplicates ids env.dupQuery).2 = [StoreOp.read] := by
    rw [check_duplicates.eq_def, if_neg hidsne]
    cases env.dupQuery <;> rfl
  simp only [store_news, if_neg hne, hids]
  rw [buildNewArticles_eq articles _ now (extractIds_isSome articles ids hids)]
  by_cases hL : ((articles.filter (fun a =>
      decide (a.id.getD 0 ∉ (check_duplicates ids env.dupQuery).1))).map
      (fun a => formatArticle a (a.id.getD 0) now)) = []
  · simp [hL, hcd2]
  · simp only [hL, if_neg hL]
    cases env.insert <;> simp [hcd2]

/-- The ordered read (descending sort, limit 1) over a store with maximum
`m` returns exactly `[m]`. -/
theorem orderedReadDesc_max (store : List Int) (m : Int)
    (hm : store.maximum = some m) :
    orderedReadDesc store = [m] := by
  have hperm := List.mergeSort_perm store (fun a b => decide (b ≤ a))
  have hsorted := @List.sorted_mergeSort Int (fun a b => decide (b ≤ a))
      (by intro a b c h1 h2; simp only [decide_eq_true_eq] at *; omega)
      (by intro a b; simp only [Bool.or_eq_true, decide_eq_true_eq]; omega)
      store
  cases hs : store.mergeSort (fun a b => decide (b ≤ a)) with
  | nil =>
    rw [hs] at hperm
    rw [← List.Perm.nil_eq hperm] at hm
    cases hm
  | cons h t =>
    rw [hs] at hperm hsorted
    have hhm : h ≤ m :=
      List.le_maximum_of_mem (hperm.mem_iff.mp (List.mem_cons_self h t)) hm
    have hmh : m ≤ h := by
      rcases List.mem_cons.mp (hperm.mem_iff.mpr (List.maximum_mem hm)) with rfl | hmt
      · exact le_refl m
      · have := List.rel_of_pairwise_cons hsorted hmt
        simpa using this
    rw [orderedReadDesc, hs]
    simp [le_antisymm hhm hmh]

/-- The record list handed to the bulk insert (empty when no insert call
was issued) is exactly the filtered, formatted candidates. -/
theorem store_news_payload_eq (articles : List Article) (ids : List Int)
    (env : StoreEnv) (now : String)
    (hids : extractIds articles = some ids) :
    (store_news articles env now).payload.getD [] =
      (articles.filter (fun a =>
        decide (a.id.getD 0 ∉ (check_duplicates ids env.dupQuery).1))).map
        (fun a => formatArticle a (a.id.getD 0) now) := by
  by_cases hne : articles = []
  · subst hne
    simp [extractIds] at hids
    subst hids
    rfl
  · rw [store_news_spec articles ids env now hne hids]
    by_cases hL : ((articles.filter (fun a =>
        decide (a.id.getD 0 ∉ (check_duplicates ids env.dupQuery).1))).map
        (fun a => formatArticle a (a.id.getD 0) now)) = []
    · rw [if_pos hL]
      exact hL.symm
    · rw [if_neg hL]
      cases env.insert <;> rfl

/-- Sample articles used by the witness theorems. -/
def art1 : Article := ⟨some 1, none, some 100, some "h1", none, none, none⟩

def art2 : Article := ⟨some 2, some "general", some 200, none, none, none, none⟩

/-! ### Claims -/

/-- C1: for every candidate sequence and every existing-identifier set
returned by the set-membership query of the store, the records passed to the
bulk insert are exactly the candidates whose identifier is not in that set,
each in normalized form, and no others. -/
theorem claimC1 (articles : List Article) (ids : List Int) (env : StoreEnv)
    (now : String) (hids : extractIds articles = some ids) :
    (store_news articles env now).payload.getD [] =
      (articles.filter (fun a =>
        decide (a.id.getD 0 ∉ (check_duplicates ids env.dupQuery).1))).map
        (fun a => formatArticle a (a.id.getD 0) now) :=
  store_news_payload_eq articles ids env now hids

/-- Witness for C1: with candidates of ids 1 and 2 and a store already
holding 2, exactly the normalized form of the first candidate is passed to
the insert. -/
theorem claimC1_witness :
    (store_news [art1, art2] ⟨.ok [2], .ok ()⟩ "t").payload.getD [] =
      [⟨1, "forex", some 100, "h1", "", "", "", "t"⟩] :=
  (claimC1 [art1, art2] [1, 2] ⟨.ok [2], .ok ()⟩ "t" rfl).trans (by decide)

/-- C2: the cursor resolver is total; on a non-empty store it returns the
maximum stored identifier, and on an empty store or a failed read it
returns the fallback constant 10. -/
theorem claimC2 (store : List Int) :
    (∀ m, store.maximum = some m →
      get_last_news_id (.ok (orderedReadDesc store)) = m)
    ∧ (store = [] → get_last_news_id (.ok (orderedReadDesc store)) = 10)
    ∧ get_last_news_id (.error ()) = 10 := by
  refine ⟨?_, ?_, rfl⟩
  · intro m hm
    rw [orderedReadDesc_max store m hm]
    rfl
  · rintro rfl
    simp [orderedReadDesc, get_last_news_id, min_id]

/-- Witness for C2: a store holding 3, 7, 5 resolves the cursor to 7; an
empty store and a failed read both resolve to 10. -/
theorem claimC2_witness :
    get_last_news_id (.ok (orderedReadDesc [3, 7, 5])) = 7
    ∧ get_last_news_id (.ok (orderedReadDesc ([] : List Int))) = 10
    ∧ get_last_news_id (.error ()) = 10 :=
  ⟨(claimC2 [3, 7, 5]).1 7 (by decide), (claimC2 []).2.1 rfl, (claimC2 []).2.2⟩

/-- C5: any fetch failure yields an empty article list without raising, and
the cycle containing it still reports success. -/
theorem claimC5 (e : FetchError) (env : StoreEnv) (now : String) :
    fetch_forex_news (.error e) = [] ∧ run (.error e) env now = true :=
  ⟨rfl, rfl⟩

/-- C6: in continuous mode the consecutive-failure counter resets on
success and increments on failure, exiting with code 1 at the threshold 5;
five straight failures exit, four failures then a success leave the loop
running with the counter at 0. -/
theorem claimC6 (f : Nat) :
    stepLoop f true = .running 0
    ∧ (f + 1 < max_failures → stepLoop f false = .running (f + 1))
    ∧ (max_failures ≤ f + 1 → stepLoop f false = .exited 1)
    ∧ runLoop 0 [false, false, false, false, false] = .exited 1
    ∧ runLoop 0 [false, false, false, false, true] = .running 0 := by
  refine ⟨rfl, ?_, ?_, by decide, by decide⟩
  · intro h
    unfold max_failures at h
    simp only [stepLoop, Bool.false_eq_true, if_false, max_failures]
    rw [if_neg (by omega)]
  · intro h
    unfold max_failures at h
    simp only [stepLoop, Bool.false_eq_true, if_false, max_failures]
    rw [if_pos (by omega)]

/-- Witness for C6: from a counter of 3 a failure moves to 4 and keeps
running; from 4 a failure exits with code 1. -/
theorem claimC6_witness :
    stepLoop 3 false = .running 4 ∧ stepLoop 4 false = .exited 1 :=
  ⟨(claimC6 3).2.1 (by decide), (claimC6 4).2.2.1 (by decide)⟩

/-- C9: an empty candidate list is a no-op success: no store read, no store
write, and the duplicate check is never consulted (it would itself issue no
read on an empty id list). -/
theorem claimC9 (env : StoreEnv) (now : String) (qr : Except Unit (List Int)) :
    store_news [] env now = ⟨true, [], none⟩ ∧ check_duplicates [] qr = (∅, []) :=
  ⟨rfl, rfl⟩

/-- C10: a non-empty batch containing an article without an id makes
`store_news` report failure having issued no store operation at all: the
`KeyError` is raised during id extraction, before any store call, and is
caught by the surrounding handler. -/
theorem claimC10 (articles : List Article) (env : StoreEnv) (now : String)
    (a : Article) (ha : a ∈ articles) (hid : a.id = none) :
    store_news articles env now = ⟨false, [], none⟩ := by
  have hne : articles ≠ [] := by rintro rfl; cases ha
  simp [store_news, hne, extractIds_eq_none articles a ha hid]

/-- Witness for C10: a singleton batch whose article lacks an id fails with
no store operations. -/
theorem claimC10_witness :
    store_news [⟨none, none, some 5, none, none, none, none⟩]
      ⟨.ok [], .ok ()⟩ "t" = ⟨false, [], none⟩ :=
  claimC10 _ ⟨.ok [], .ok ()⟩ "t" ⟨none, none, some 5, none, none, none, none⟩
    (List.mem_singleton_self _) rfl

/-- C3: the candidate list of the fetcher is the parsed articles sorted
descending by datetime (a missing datetime sorting as 0), truncated to at
most the 10 most recent: the result is descending, has length
`min 10 (input length)`, draws only from the input, and every article left
out has a datetime no larger than every article kept. -/
theorem claimC3 (l : List Article) :
    List.Pairwise (fun x y => sortKey y ≤ sortKey x) (fetch_forex_news (.ok l))
    ∧ (fetch_forex_news (.ok l)).length = min 10 l.length
    ∧ (∀ x ∈ fetch_forex_news (.ok l), x ∈ l)
    ∧ (∀ x ∈ fetch_forex_news (.ok l), ∀ y ∈ l,
        y ∉ fetch_forex_news (.ok l) → sortKey y ≤ sortKey x) := by
  have hperm := List.mergeSort_perm l (fun x y => decide (sortKey y ≤ sortKey x))
  have hsorted := @List.sorted_mergeSort Article
      (fun x y => decide (sortKey y ≤ sortKey x))
      (fun a b c h1 h2 => by simp only [decide_eq_true_eq] at *; omega)
      (fun a b => by simp only [Bool.or_eq_true, decide_eq_true_eq]; omega)
      l
  simp only [fetch_forex_news]
  refine ⟨?_, ?_, ?_, ?_⟩
  · exact (List.Pairwise.sublist (List.take_sublist 10 _) hsorted).imp
      (fun h => by simpa using h)
  · rw [List.length_take, hperm.length_eq]
  · intro x hx
    exact hperm.mem_iff.mp (List.take_subset 10 _ hx)
  · intro x hx y hy hyn
    have hy2 : y ∈ l.mergeSort (fun x y => decide (sortKey y ≤ sortKey x)) :=
      hperm.mem_iff.mpr hy
    rw [← List.take_append_drop 10
      (l.mergeSort (fun x y => decide (sortKey y ≤ sortKey x)))] at hy2
    rcases List.mem_append.mp hy2 with h | h
    · exact absurd h hyn
    · have hp := List.pairwise_append.mp
        (show List.Pairwise
            (fun a b : Article => decide (sortKey b ≤ sortKey a) = true)
            (List.take 10 (l.mergeSort (fun x y => decide (sortKey y ≤ sortKey x)))
              ++ List.drop 10 (l.mergeSort (fun x y => decide (sortKey y ≤ sortKey x))))
          from by rw [List.take_append_drop]; exact hsorted)
      have := hp.2.2 x hx y h
      simpa using this

/-- Fifteen sample articles with pairwise distinct effective datetimes,
already in descending datetime order; the last one carries no datetime
field and so sorts as 0, the oldest. -/
def bigList : List Article :=
  [⟨some 15, none, some 15, none, none, none, none⟩,
   ⟨some 14, none, some 14, none, none, none, none⟩,
   ⟨some 13, none, some 13, none, none, none, none⟩,
   ⟨some 12, none, some 12, none, none, none, none⟩,
   ⟨some 11, none, some 11, none, none, none, none⟩,
   ⟨some 10, none, some 10, none, none, none, none⟩,
   ⟨some 9, none, some 9, none, none, none, none⟩,
   ⟨some 8, none, some 8, none, none, none, none⟩,
   ⟨some 7, none, some 7, none, none, none, none⟩,
   ⟨some 6, none, some 6, none, none, none, none⟩,
   ⟨some 5, none, some 5, none, none, none, none⟩,
   ⟨some 4, none, some 4, none, none, none, none⟩,
   ⟨some 3, none, some 3, none, none, none, none⟩,
   ⟨some 2, none, some 2, none, none, none, none⟩,
   ⟨some 1, none, none, none, none, none, none⟩]

/-- On the already-descending sample list the fetcher keeps exactly the
first ten articles. -/
theorem fetch_bigList : fetch_forex_news (.ok bigList) = bigList.take 10 := by
  simp only [fetch_forex_news]
  rw [List.mergeSort_of_sorted (by decide)]

/-- Witness for C3: the 15-article sample yields exactly 10 candidates, and
the datetime-less article left out is no newer than the newest kept one. -/
theorem claimC3_witness :
    (fetch_forex_news (.ok bigList)).length = 10
    ∧ sortKey ⟨some 1, none, none, none, none, none, none⟩ ≤
        sortKey ⟨some 15, none, some 15, none, none, none, none⟩ :=
  ⟨((claimC3 bigList).2.1).trans (by decide),
   (claimC3 bigList).2.2.2 ⟨some 15, none, some 15, none, none, none, none⟩
     (by rw [fetch_bigList]; decide)
     ⟨some 1, none, none, none, none, none, none⟩ (by decide)
     (by rw [fetch_bigList]; decide)⟩

/-- C7: every candidate not already present is normalized with identifier
and datetime copied verbatim, category defaulting to `"forex"`, the
optional strings defaulting to `""`, and the ingestion timestamp attached,
and that record reaches the bulk-insert payload. -/
theorem claimC7 (articles : List Article) (ids : List Int) (env : StoreEnv)
    (now : String) (a : Article) (i : Int)
    (hids : extractIds articles = some ids) (ha : a ∈ articles)
    (hid : a.id = some i)
    (hnew : i ∉ (check_duplicates ids env.dupQuery).1) :
    ({ id := i, category := a.category.getD "forex", datetime := a.datetime,
       headline := a.headline.getD "", source := a.source.getD "",
       summary := a.summary.getD "", url := a.url.getD "",
       ingested_at := now } : StoredRecord) ∈
      (store_news articles env now).payload.getD [] := by
  rw [store_news_payload_eq articles ids env now hids]
  have hmem : a ∈ articles.filter (fun a =>
      decide (a.id.getD 0 ∉ (check_duplicates ids env.dupQuery).1)) :=
    List.mem_filter.mpr ⟨ha, by simp [hid, hnew]⟩
  have := List.mem_map_of_mem (fun a => formatArticle a (a.id.getD 0) now) hmem
  simpa [formatArticle, hid] using this

/-- Witness for C7: with the store holding only id 1, the second sample
article is normalized (keeping its own category, defaulting the missing
strings) and passed to the insert. -/
theorem claimC7_witness :
    (⟨2, "general", some 200, "", "", "", "", "t"⟩ : StoredRecord) ∈
      (store_news [art1, art2] ⟨.ok [1], .ok ()⟩ "t").payload.getD [] :=
  claimC7 [art1, art2] [1, 2] ⟨.ok [1], .ok ()⟩ "t" art2 2 rfl (by decide)
    rfl (by decide)

/-- C8: a failed set-membership query degrades the existing-identifier set
to the empty set, every candidate of the cycle is treated as new, and the
cycle is not aborted: with a working insert it still succeeds. -/
theorem claimC8 (articles : List Article) (ids : List Int) (env : StoreEnv)
    (now : String) (hne : articles ≠ [])
    (hids : extractIds articles = some ids)
    (herr : env.dupQuery = .error ()) :
    (check_duplicates ids env.dupQuery).1 = ∅
    ∧ (store_news articles env now).payload.getD [] =
        articles.map (fun a => formatArticle a (a.id.getD 0) now)
    ∧ (env.insert = .ok () → (store_news articles env now).success = true) := by
  have h1 : (check_duplicates ids env.dupQuery).1 = ∅ := by
    by_cases h0 : ids = [] <;> simp [check_duplicates, herr, h0]
  have hfilter : articles.filter (fun a =>
      decide (a.id.getD 0 ∉ (check_duplicates ids env.dupQuery).1)) = articles := by
    rw [h1]
    simp
  refine ⟨h1, ?_, ?_⟩
  · rw [store_news_payload_eq articles ids env now hids, hfilter]
  · intro hins
    rw [store_news_spec articles ids env now hne hids, hfilter]
    have hmapne : articles.map (fun a => formatArticle a (a.id.getD 0) now) ≠ [] := by
      simpa using hne
    rw [if_neg hmapne, hins]

/-- Witness for C8: one candidate, failed duplicate check, working insert:
the existing set is empty, the candidate is formatted and inserted, and the
call succeeds. -/
theorem claimC8_witness :
    (check_duplicates [1] (Except.error ())).1 = ∅
    ∧ (store_news [art1] ⟨.error (), .ok ()⟩ "t").payload.getD [] =
        [art1].map (fun a => formatArticle a (a.id.getD 0) "t")
    ∧ (store_news [art1] ⟨.error (), .ok ()⟩ "t").success = true :=
  ⟨(claimC8 [art1] [1] ⟨.error (), .ok ()⟩ "t" (by decide) rfl rfl).1,
   (claimC8 [art1] [1] ⟨.error (), .ok ()⟩ "t" (by decide) rfl rfl).2.1,
   (claimC8 [art1] [1] ⟨.error (), .ok ()⟩ "t" (by decide) rfl rfl).2.2 rfl⟩

/-- The repeated sample article used to refute the repeated-identifier part
of C4. -/
def dupArt : Article := ⟨some 1, none, some 5, none, none, none, none⟩

/-- Counterexample to C4, violating both of its payload parts at concrete
inputs.  First, a fetched batch holding the same article twice, against an
empty store with a successful duplicate check, makes the bulk-insert
payload carry identifier 1 twice — the filter deduplicates only against
the store, not within the batch.  Second, when the duplicate check fails,
a batch whose article is already stored (store holding exactly id 1) still
puts identifier 1 into the payload — an identifier already present in the
store is re-inserted. -/
theorem claimC4_counterexample :
    (¬ (((store_news [dupArt, dupArt]
        ⟨.ok (setMembershipRead [] [1, 1]), .ok ()⟩ "t").payload.getD []).map
        StoredRecord.id).Nodup)
    ∧ (∃ r ∈ (store_news [dupArt] ⟨.error (), .ok ()⟩ "t").payload.getD [],
        r.id ∈ ([1] : List Int)) := by
  constructor
  · decide
  · decide

/-- C4 as amended: in any cycle whose duplicate check succeeds against the
store, no identifier already present in the store reaches the bulk-insert
payload (repeated-id batches included); and provided the batch identifiers
are pairwise distinct, no identifier appears in the payload more than
once. -/
theorem claimC4_amended (articles : List Article) (ids : List Int)
    (store : List Int) (env : StoreEnv) (now : String)
    (hids : extractIds articles = some ids)
    (hq : env.dupQuery = .ok (setMembershipRead store ids)) :
    (∀ r ∈ (store_news articles env now).payload.getD [], r.id ∉ store)
    ∧ (ids.Nodup →
        (((store_news articles env now).payload.getD []).map
          StoredRecord.id).Nodup) := by
  rw [store_news_payload_eq articles ids env now hids]
  constructor
  · intro r hr
    obtain ⟨a, haf, rfl⟩ := List.mem_map.mp hr
    obtain ⟨ha, hp⟩ := List.mem_filter.mp haf
    rw [decide_eq_true_eq] at hp
    intro hstore
    have hin : a.id.getD 0 ∈ ids := by
      rw [← extractIds_eq_map articles ids hids]
      exact List.mem_map_of_mem _ ha
    refine hp ?_
    rw [hq, check_duplicates.eq_def, if_neg (List.ne_nil_of_mem hin)]
    simp only [List.mem_toFinset]
    exact List.mem_filter.mpr ⟨hstore, by simpa using hin⟩
  · intro hnodup
    rw [List.map_map]
    show ((articles.filter (fun a =>
      decide (a.id.getD 0 ∉ (check_duplicates ids env.dupQuery).1))).map
      (fun a => a.id.getD 0)).Nodup
    have hsub : List.Sublist
        ((articles.filter (fun a =>
          decide (a.id.getD 0 ∉ (check_duplicates ids env.dupQuery).1))).map
          (fun a => a.id.getD 0))
        (articles.map (fun a => a.id.getD 0)) :=
      (List.filter_sublist articles).map _
    rw [extractIds_eq_map articles ids hids] at hsub
    exact List.Nodup.sublist hsub hnodup

/-- Witness for the amended C4: two distinct candidates against a store
holding 2 and 4: the normalized record for id 1 is in the payload with an
id not among the stored ones, and the payload ids are duplicate-free. -/
theorem claimC4_amended_witness :
    ((⟨1, "forex", some 100, "h1", "", "", "", "t"⟩ : StoredRecord).id ∉
      ([2, 4] : List Int))
    ∧ (((store_news [art1, art2]
        ⟨.ok (setMembershipRead [2, 4] [1, 2]), .ok ()⟩ "t").payload.getD
        []).map StoredRecord.id).Nodup :=
  ⟨(claimC4_amended [art1, art2] [1, 2] [2, 4]
      ⟨.ok (setMembershipRead [2, 4] [1, 2]), .ok ()⟩ "t" rfl rfl).1
      ⟨1, "forex", some 100, "h1", "", "", "", "t"⟩ (by decide),
   (claimC4_amended [art1, art2] [1, 2] [2, 4]
      ⟨.ok (setMembershipRead [2, 4] [1, 2]), .ok ()⟩ "t" rfl rfl).2 (by decide)⟩

end ForexNews
